import Mathlib

/-!
Verification of the goscry Task Execution Engine against its specification.

The Go source is shallowly embedded:
- `taskstypes` data model (`TaskStatus`, `Action`, `Credentials`, `TaskResult`)
  becomes plain Lean structures and an inductive status type;
- the pure Action Translator `GenerateActionSequence`
  (internal/browser/actions, unnamed part_006) becomes a Lean function from
  actions to an `Except`-valued chromedp command tree; the one call it makes
  into the Go standard library, `time.ParseDuration`, is passed in as an
  oracle parameter `pd` (no claim depends on it), and `strconv.Atoi` is
  modelled by `String.toInt?`;
- the Challenge Detector `detect2FAPrompt` (internal/browser/chromedp.go)
  becomes a function over a `PageProbe` describing the live page
  (element-presence per selector and visible text, each fallible);
- the Job Executor `ExecuteTask` / `executeWithPotential2FA` becomes a
  functional model driven by an `ExecEnv` oracle giving each chromedp run,
  detection probe, code wait and code entry its outcome, and emitting an
  event trace of translator calls, direct status writes and 2FA code entry;
- the Task Manager (`executeTask`, `Provide2FACode`, `Shutdown`,
  internal/tasks/task.go) becomes functions over a registry of task records;
- the concurrent interleaving of one executor goroutine with
  `Provide2FACode` and `Shutdown` becomes a small-step transition relation
  `MStep` over a machine configuration, with `Relation.ReflTransGen` for
  reachability.
-/

/-- Task status enumeration, from `taskstypes.TaskStatus`
(string constants pending/running/waiting_for_2fa/completed/failed/cancelled). -/
inductive TStatus where
  | pending
  | running
  | waitingFor2FA
  | completed
  | failed
  | cancelled
deriving DecidableEq, Repr

/-- The Go string value of each status constant. -/
def statusStr : TStatus → String
  | .pending => "pending"
  | .running => "running"
  | .waitingFor2FA => "waiting_for_2fa"
  | .completed => "completed"
  | .failed => "failed"
  | .cancelled => "cancelled"

/-- Action type string constants from `taskstypes`. -/
def actionNavigate : String := "navigate"

def actionWaitVisible : String := "wait_visible"

def actionWaitHidden : String := "wait_hidden"

def actionWaitDelay : String := "wait_delay"

def actionClick : String := "click"

def actionInput : String := "type"

def actionSelect : String := "select"

def actionScroll : String := "scroll"

def actionScreenshot : String := "screenshot"

def actionGetDOM : String := "get_dom"

def actionRunScript : String := "run_script"

def actionLogin : String := "login"

/-- One declarative browser action, from `taskstypes.Action`
(the `Timeout` field is never read by the engine and is omitted). -/
structure GAction where
  type : String
  selector : String := ""
  value : String := ""
  format : String := ""
deriving DecidableEq, Repr

/-- Username/password pair, from `taskstypes.Credentials`. -/
structure Credentials where
  username : String
  password : String
deriving DecidableEq, Repr

/-- Execution result, from `taskstypes.TaskResult`. `Data` and `CustomData`
hold dynamically typed payloads in Go; the engine paths modelled here never
write them, so an optional string / association list suffices. -/
structure TaskResult where
  success : Bool := false
  message : String := ""
  data : Option String := none
  error : String := ""
  customData : Option (List (String × String)) := none
deriving DecidableEq, Repr

/-- A chromedp command tree, the codomain of the Action Translator.
Constructors mirror the chromedp / `dom` package constructors used by the
source: `dom.ClickAction` is `chromedp.Tasks` of WaitVisible then Click,
`dom.TypeAction` is SendKeys, `dom.SelectAction` is SetValue, and so on. -/
inductive CdpAction where
  | navigate (url : String)
  | waitVisible (sel : String)
  | waitNotVisible (sel : String)
  | sleep (nanos : Nat)
  | click (sel : String)
  | sendKeys (sel text : String)
  | setValue (sel value : String)
  | evaluate (script : String)
  | scrollIntoView (sel : String)
  | fullScreenshot (quality : Nat)
  | outerHTML (sel : String)
  | clear (sel : String)
  | submit (sel : String)
  | tasks (ts : List CdpAction)

/-- The reserved placeholder token `{{task.tfa_code}}` recognised by
`resolveValue` in `GenerateActionSequence`. -/
def tfaPlaceholder : String := "\x7b\x7btask.tfa_code\x7d\x7d"

/-- Helper closure `resolveValue` of `GenerateActionSequence`: a value equal
to the placeholder is replaced by `tfaCode` when the latter is non-empty. -/
def resolveValue (tfaCode value : String) : String :=
  if value = tfaPlaceholder ∧ tfaCode ≠ "" then tfaCode else value

/-- Script built by the `get_dom` default branch of the translator. -/
def textContentScript (sel : String) : String :=
  "document.querySelector(\x27" ++ sel ++ "\x27) ? document.querySelector(\x27"
    ++ sel ++ "\x27).innerText : document.body.innerText"

/-- Conventional login selectors from the `login` branch of the translator. -/
def loginUserSel : String := "#username"

def loginPassSel : String := "#password"

def loginSubmitSel : String := "button[type=\x27submit\x27], input[type=\x27submit\x27]"

/-- The Action Translator `GenerateActionSequence` (browser package, unnamed
part_006): one declarative action, optional credentials and a resolved 2FA
code string to exactly one chromedp command or a validation error.
`pd` is the `time.ParseDuration` oracle (result in nanoseconds). -/
def GenerateActionSequence (pd : String → Except String Nat) (a : GAction)
    (creds : Option Credentials) (tfaCode : String) : Except String CdpAction :=
  if a.type = actionNavigate then
    if a.value = "" then .error "navigate action requires a non-empty URL value"
    else .ok (.navigate a.value)
  else if a.type = actionWaitVisible then
    if a.selector = "" then .error "wait_visible action requires a selector"
    else .ok (.waitVisible a.selector)
  else if a.type = actionWaitHidden then
    if a.selector = "" then .error "wait_hidden action requires a selector"
    else .ok (.waitNotVisible a.selector)
  else if a.type = actionWaitDelay then
    match pd a.value with
    | .error e =>
        .error ("invalid duration value for wait_delay \x27" ++ a.value ++ "\x27: " ++ e)
    | .ok d => .ok (.sleep d)
  else if a.type = actionClick then
    if a.selector = "" then .error "click action requires a selector"
    else .ok (.tasks [.waitVisible a.selector, .click a.selector])
  else if a.type = actionInput then
    if a.selector = "" then .error "type action requires a selector"
    else .ok (.sendKeys a.selector (resolveValue tfaCode a.value))
  else if a.type = actionSelect then
    if a.selector = "" then .error "select action requires a selector"
    else .ok (.setValue a.selector (resolveValue tfaCode a.value))
  else if a.type = actionScroll then
    if a.value = "top" then .ok (.evaluate "window.scrollTo(0, 0)")
    else if a.value = "bottom" then
      .ok (.evaluate "window.scrollTo(0, document.body.scrollHeight)")
    else if a.selector ≠ "" then .ok (.scrollIntoView a.selector)
    else .error "invalid scroll action requires \x27top\x27, \x27bottom\x27, or a selector"
  else if a.type = actionScreenshot then
    .ok (.fullScreenshot
      (match a.value.toInt? with
        | some q => if 0 ≤ q ∧ q ≤ 100 then q.toNat else 90
        | none => 90))
  else if a.type = actionGetDOM then
    let sel := if a.selector = "" then "body" else a.selector
    if a.format = "full_html" then .ok (.outerHTML sel)
    else if a.format = "simplified_html" then .ok (.outerHTML sel)
    else .ok (.evaluate (textContentScript sel))
  else if a.type = actionRunScript then
    if a.value = "" then .error "run_script action requires script code in value"
    else .ok (.evaluate a.value)
  else if a.type = actionLogin then
    match creds with
    | none => .error "credentials required for login action but not provided or incomplete"
    | some c =>
        if c.username = "" ∨ c.password = "" then
          .error "credentials required for login action but not provided or incomplete"
        else
          .ok (.tasks
            [.waitVisible loginUserSel, .sendKeys loginUserSel c.username,
             .waitVisible loginPassSel, .sendKeys loginPassSel c.password,
             .waitVisible loginSubmitSel, .click loginSubmitSel])
  else .error ("unknown action type: " ++ a.type)

/-! ## Challenge Detector (`Manager.detect2FAPrompt`, internal/browser/chromedp.go) -/

/-- Substring test over character lists: `pat` occurs somewhere in the text.
Models Go `strings.Contains` (restricted to the ASCII patterns the source
uses, where byte-wise and character-wise containment agree). -/
def listHasSub (pat : List Char) : List Char → Bool
  | [] => pat.isEmpty
  | c :: rest => pat.isPrefixOf (c :: rest) || listHasSub pat rest

/-- String form of `listHasSub`: models `strings.Contains s pat`. -/
def strContainsSub (s pat : String) : Bool := listHasSub pat.data s.data

/-- The live-page oracle consumed by the detector: per-selector element
presence (`dom.IsElementPresentAction`) and the page's visible body text
(`dom.GetTextContentAction`), each of which can fail as a chromedp run. -/
structure PageProbe where
  elementPresent : String → Except String Bool
  visibleText : Except String String

/-- The fixed selector list `tfaSelectors` of `detect2FAPrompt`. -/
def tfaSelectors : List String :=
  ["input[name=\x27otp\x27]", "input[name=\x27security_code\x27]",
   "input[autocomplete=\x27one-time-code\x27]", "#verification_code",
   "input[id*=\x272fa\x27]", "input[id*=\x27mfa\x27]"]

/-- The fixed phrase list `tfaTextPatterns` of `detect2FAPrompt`. -/
def tfaTextPatterns : List String :=
  ["enter verification code", "two-factor authentication", "security code",
   "enter the code"]

/-- One selector probe of the detector loop: a hit only when the chromedp run
succeeded and reported the element present (a probe error is logged and
treated as a miss). -/
def probeHit (probe : PageProbe) (sel : String) : Bool :=
  match probe.elementPresent sel with
  | .ok b => b
  | .error _ => false

/-- The Challenge Detector `detect2FAPrompt`: selector pass first (first
present element wins), then a case-insensitive substring scan of the page
text (first phrase wins); no match reports no challenge. The returned string
is the `details` value the source builds. -/
def detect2FAPrompt (probe : PageProbe) : Bool × String :=
  match tfaSelectors.find? (probeHit probe) with
  | some sel => (true, "Detected via selector: " ++ sel)
  | none =>
    match probe.visibleText with
    | .ok t =>
        match tfaTextPatterns.find? (fun p => strContainsSub t.toLower p) with
        | some p => (true, "Detected via text: " ++ p)
        | none => (false, "")
    | .error _ => (false, "")

/-- The generic fallback code-field selector from the `default` branch of the
prompt-type switch in `executeWithPotential2FA`. -/
def tfaFallbackSel : String :=
  "input[name=\x27code\x27], input[placeholder*=\x27code\x27], input[aria-label*=\x27code\x27]"

/-- The prompt-type switch of `executeWithPotential2FA`, choosing the
selector used to enter a provided 2FA code. -/
def tfaSelectorFor (promptType : String) : String :=
  if promptType = "input" then
    "input[type=\x27text\x27], input[type=\x27number\x27], input[type=\x27tel\x27]"
  else if promptType = "button" then "button.confirm, button.verify"
  else tfaFallbackSel

/-! ## Job Executor (`Manager.ExecuteTask` / `executeWithPotential2FA`,
internal/browser/chromedp.go) and Task Manager finalisation
(`Manager.executeTask`, internal/tasks/task.go).

The browser and the page are external collaborators; an `ExecEnv` oracle
fixes the outcome of every effectful call the executor makes (slot
acquisition, each `chromedp.Run`, each detection probe, each code wait and
each code entry). The executor additionally emits an event trace recording
every Action Translator call and its output, every direct `task.Status`
write it performs, and every 2FA code entry it runs. -/

/-- Outcomes of the executor's effectful calls, indexed by action position. -/
structure ExecEnv where
  acquireErr : Option String
  runErr : Nat → Option String
  detect : Nat → Except String (Bool × String)
  codeWait : Nat → Except String String
  entryErr : Nat → Option String

/-- Observable executor events: a translator invocation with its produced
command, a direct status write, or a 2FA code entry (selector and code). -/
inductive ExecEv where
  | gen (i : Nat) (cmd : CdpAction)
  | statusW (st : TStatus)
  | codeEntry (i : Nat) (sel code : String)

/-- The result value `ExecuteTask` initialises and returns on full success. -/
def successResult : TaskResult :=
  { success := true, message := "Task completed successfully" }

/-- The result value after a failed action run at index `i`. -/
def runFailResult (i : Nat) (a : GAction) (e : String) : TaskResult :=
  { success := false, message := "Failed on action " ++ toString i ++ ": " ++ a.type,
    error := e }

/-- The result value after a translator failure. -/
def genFailResult (e : String) : TaskResult :=
  { success := false, message := "Failed to generate action", error := e }

/-- The result the manager stores when the executor returned an error:
`executeTask` discards the executor's returned result and builds a fresh
`TaskResult` holding only the error text. -/
def mgrErrResult (e : String) : TaskResult := { error := e }

/-- Model of `executeWithPotential2FA` at action index `i` (the action run
itself, then the challenge protocol): returns the emitted events and the
error, if any. A detection probe error is logged and treated as no
challenge. On detection the task status is written to waiting_for_2fa;
after a successful code entry it is written back to running. -/
def execWith2FA (env : ExecEnv) (i : Nat) : List ExecEv × Option String :=
  match env.runErr i with
  | some e => ([], some e)
  | none =>
    match env.detect i with
    | .error _ => ([], none)
    | .ok (false, _) => ([], none)
    | .ok (true, hint) =>
      match env.codeWait i with
      | .error e => ([.statusW .waitingFor2FA], some ("2FA code wait error: " ++ e))
      | .ok code =>
        let sel := tfaSelectorFor hint
        if sel ≠ "" then
          match env.entryErr i with
          | some e =>
              ([.statusW .waitingFor2FA, .codeEntry i sel code],
               some ("failed to input 2FA code: " ++ e))
          | none =>
              ([.statusW .waitingFor2FA, .codeEntry i sel code, .statusW .running],
               none)
        else ([.statusW .waitingFor2FA, .statusW .running], none)

/-- The action loop of `ExecuteTask`. Arguments: next action index, current
value of `task.CurrentAction` (0 on entry, set to `i` at the top of each
iteration), remaining actions. Returns the result value, the returned
error, the final `CurrentAction`, and the event trace. The translator is
always invoked with the empty resolved 2FA code string. -/
def execLoop (pd : String → Except String Nat) (creds : Option Credentials)
    (env : ExecEnv) : Nat → Nat → List GAction →
      TaskResult × Option String × Nat × List ExecEv
  | _, cur, [] => (successResult, none, cur, [])
  | i, _, a :: rest =>
    match GenerateActionSequence pd a creds "" with
    | .error e => (genFailResult e, some e, i, [])
    | .ok cmd =>
      if a.type = actionNavigate ∨ a.type = actionClick then
        match execWith2FA env i with
        | (evs, some e) => (runFailResult i a e, some e, i, .gen i cmd :: evs)
        | (evs, none) =>
          match execLoop pd creds env (i + 1) i rest with
          | (r, err, cur, evs2) => (r, err, cur, .gen i cmd :: (evs ++ evs2))
      else
        match env.runErr i with
        | some e => (runFailResult i a e, some e, i, [.gen i cmd])
        | none =>
          match execLoop pd creds env (i + 1) i rest with
          | (r, err, cur, evs2) => (r, err, cur, .gen i cmd :: evs2)

/-- `Manager.ExecuteTask` (browser): acquire a slot (failing the whole call
if acquisition errors, with a nil result), then run the action loop. -/
def ExecuteTask (pd : String → Except String Nat) (creds : Option Credentials)
    (env : ExecEnv) (actions : List GAction) :
    Option TaskResult × Option String × Nat × List ExecEv :=
  match env.acquireErr with
  | some e => (none, some ("failed to acquire browser slot: " ++ e), 0, [])
  | none =>
    match execLoop pd creds env 0 0 actions with
    | (r, err, cur, evs) => (some r, err, cur, evs)

/-- Final fields of a task after its manager goroutine finished. -/
structure RunOut where
  status : TStatus
  result : Option TaskResult
  currentAction : Nat
  events : List ExecEv

/-- `Manager.executeTask` (tasks): run the browser executor, then store the
terminal result and status — on error a fresh `TaskResult` carrying only
the error text (the executor's returned result is discarded), on success
the executor's result, with status failed resp. completed. -/
def executeTaskMgr (pd : String → Except String Nat) (creds : Option Credentials)
    (env : ExecEnv) (actions : List GAction) : RunOut :=
  match ExecuteTask pd creds env actions with
  | (r, err, cur, evs) =>
    match err with
    | some e => ⟨.failed, some (mgrErrResult e), cur, evs⟩
    | none => ⟨.completed, r, cur, evs⟩

/-- Scratch environment for concrete evaluation: acquisition succeeds, all
runs succeed, no challenge is ever detected. -/
def quietEnv : ExecEnv :=
  { acquireErr := none, runErr := fun _ => none,
    detect := fun _ => .ok (false, ""), codeWait := fun _ => .error "timeout",
    entryErr := fun _ => none }

/-- Scratch environment in which every navigate/click triggers a challenge
and the code "654321" arrives in time. -/
def env2fa : ExecEnv :=
  { acquireErr := none, runErr := fun _ => none,
    detect := fun _ => .ok (true, "Detected via selector: input[name=\x27otp\x27]"),
    codeWait := fun _ => .ok "654321", entryErr := fun _ => none }

/-! ## Task Manager registry operations (internal/tasks/task.go) -/

/-- Registry entry for one task. The 2FA signal channel is created by the
HTTP handler as a buffered channel of capacity one: `chanInit` is whether it
is non-nil, `chanBuf` its buffer content. `receiverWaiting` records whether
the executor goroutine is currently blocked receiving in `WaitForTFACode`;
Go channel semantics make a waiting receiver imply an empty buffer, and a
non-blocking send succeeds exactly when the channel is non-nil and its
buffer has room. -/
structure TaskRec where
  status : TStatus
  currentAction : Nat := 0
  result : Option TaskResult := none
  chanInit : Bool := true
  chanBuf : Option String := none
  receiverWaiting : Bool := false
deriving DecidableEq, Repr

/-- Registry lookup (`m.tasks[id]`); ids are unique map keys, modelled as an
association list. -/
def lookupTask (st : List (Nat × TaskRec)) (id : Nat) : Option TaskRec :=
  (st.find? (fun p => p.1 == id)).map (fun p => p.2)

/-- Pointwise registry update at one id. -/
def updateTask (st : List (Nat × TaskRec)) (id : Nat) (t : TaskRec) :
    List (Nat × TaskRec) :=
  st.map (fun p => if p.1 == id then (p.1, t) else p)

/-- `Manager.Provide2FACode`: not-found when the id is unregistered, a
state-conflict error when the task is not waiting for 2FA, otherwise a
non-blocking send on the task's capacity-one channel — which succeeds into
the buffer when the channel is live and empty, and otherwise takes the
`default` branch with a channel-not-ready error. Returns the error (if any)
and the registry afterwards. -/
def Provide2FACode (st : List (Nat × TaskRec)) (id : Nat) (code : String) :
    Option String × List (Nat × TaskRec) :=
  match lookupTask st id with
  | none => (some ("task with ID " ++ toString id ++ " not found"), st)
  | some t =>
    if t.status ≠ .waitingFor2FA then
      (some ("task is not waiting for 2FA code (status: " ++ statusStr t.status ++ ")"),
       st)
    else if t.chanInit ∧ t.chanBuf = none then
      (none, updateTask st id { t with chanBuf := some code })
    else (some "failed to provide 2FA code, channel not ready", st)

/-- `Manager.GetTaskStatus`: an independent snapshot copy of the entry. -/
def GetTaskStatus (st : List (Nat × TaskRec)) (id : Nat) : Except String TaskRec :=
  match lookupTask st id with
  | none => .error ("task with ID " ++ toString id ++ " not found")
  | some t => .ok t

/-- `Manager.Shutdown`: walk the registry under the lock and set every task
whose status is running or waiting_for_2fa to cancelled; all other entries
(including pending ones) are left as they are, and no entry is removed. -/
def ManagerShutdown (st : List (Nat × TaskRec)) : List (Nat × TaskRec) :=
  st.map (fun p =>
    if p.2.status = .running ∨ p.2.status = .waitingFor2FA then
      (p.1, { p.2 with status := .cancelled })
    else p)

/-! ## Interleaving machine

One task's executor goroutine (`Manager.executeTask` plus
`Manager.ExecuteTask` / `executeWithPotential2FA`), interleaved with the
manager operations `Provide2FACode` and `Shutdown` on the shared task
record. Each constructor of `MStep` is one shared-state access of the
source: the executor's status writes in the challenge branch and its final
result/status stores are separate steps, exactly as they are separate
(and partly unlocked) accesses in the Go code; choices the environment
makes (run outcomes, detection, timeouts) appear as nondeterminism. -/

/-- Executor program counter, at the granularity of shared-state accesses. -/
inductive EPC where
  | start
  | acquireP
  | beforeAction (i : Nat)
  | inAction (i : Nat)
  | waiting (i : Nat)
  | gotCode (i : Nat)
  | finishingOk
  | finishingErr (e : String)
  | resultSetOk
  | resultSetErr
  | doneP
deriving DecidableEq, Repr

/-- Shared configuration: the task's fields plus the executor's counter. -/
structure MConfig where
  actions : List GAction
  status : TStatus
  currentAction : Nat
  result : Option TaskResult
  chanBuf : Option String
  pc : EPC
deriving DecidableEq, Repr

/-- Default action value used for out-of-range indexing. -/
def defaultGA : GAction := ⟨"", "", "", ""⟩

/-- One interleaved step of the executor goroutine, `Provide2FACode`, or
`Shutdown`. -/
inductive MStep : MConfig → MConfig → Prop where
  | startExec (c : MConfig) (h : c.pc = .start) :
      MStep c { c with status := .running, pc := .acquireP }
  | acquireOk (c : MConfig) (h : c.pc = .acquireP) :
      MStep c { c with pc := .beforeAction 0 }
  | acquireFail (c : MConfig) (e : String) (h : c.pc = .acquireP) :
      MStep c { c with pc := .finishingErr ("failed to acquire browser slot: " ++ e) }
  | loopExit (c : MConfig) (i : Nat) (h : c.pc = .beforeAction i)
      (hlen : c.actions.length ≤ i) :
      MStep c { c with pc := .finishingOk }
  | enterAction (c : MConfig) (i : Nat) (h : c.pc = .beforeAction i)
      (hlen : i < c.actions.length) :
      MStep c { c with currentAction := i, pc := .inAction i }
  | actionFail (c : MConfig) (i : Nat) (e : String) (h : c.pc = .inAction i) :
      MStep c { c with pc := .finishingErr e }
  | actionOk (c : MConfig) (i : Nat) (h : c.pc = .inAction i) :
      MStep c { c with pc := .beforeAction (i + 1) }
  | detectHit (c : MConfig) (i : Nat) (h : c.pc = .inAction i)
      (hnav : (c.actions.getD i defaultGA).type = actionNavigate ∨
        (c.actions.getD i defaultGA).type = actionClick) :
      MStep c { c with status := .waitingFor2FA, pc := .waiting i }
  | provideCodeStep (c : MConfig) (code : String) (h : c.status = .waitingFor2FA)
      (hb : c.chanBuf = none) :
      MStep c { c with chanBuf := some code }
  | recvCode (c : MConfig) (i : Nat) (code : String) (h : c.pc = .waiting i)
      (hb : c.chanBuf = some code) :
      MStep c { c with chanBuf := none, pc := .gotCode i }
  | waitTimeout (c : MConfig) (i : Nat) (h : c.pc = .waiting i) :
      MStep c { c with pc := .finishingErr "2FA code wait error: context deadline exceeded" }
  | entryFail (c : MConfig) (i : Nat) (e : String) (h : c.pc = .gotCode i) :
      MStep c { c with pc := .finishingErr ("failed to input 2FA code: " ++ e) }
  | entryOk (c : MConfig) (i : Nat) (h : c.pc = .gotCode i) :
      MStep c { c with status := .running, pc := .beforeAction (i + 1) }
  | finishOkResult (c : MConfig) (h : c.pc = .finishingOk) :
      MStep c { c with result := some successResult, pc := .resultSetOk }
  | finishOkStatus (c : MConfig) (h : c.pc = .resultSetOk) :
      MStep c { c with status := .completed, pc := .doneP }
  | finishErrResult (c : MConfig) (e : String) (h : c.pc = .finishingErr e) :
      MStep c { c with result := some (mgrErrResult e), pc := .resultSetErr }
  | finishErrStatus (c : MConfig) (h : c.pc = .resultSetErr) :
      MStep c { c with status := .failed, pc := .doneP }
  | shutdownStep (c : MConfig)
      (h : c.status = .running ∨ c.status = .waitingFor2FA) :
      MStep c { c with status := .cancelled }

/-- Configuration of a freshly submitted task (handler-created record,
registered by `SubmitTask`, goroutine not yet scheduled). -/
def initConfig (actions : List GAction) : MConfig :=
  ⟨actions, .pending, 0, none, none, .start⟩

/-- Reachability: any interleaving of the above steps. -/
def MReach (c c' : MConfig) : Prop := Relation.ReflTransGen MStep c c'

/-- Which statuses each executor position is compatible with. -/
def pcStatusOK : EPC → TStatus → Prop
  | .start, s => s = .pending
  | .acquireP, s => s = .running ∨ s = .cancelled
  | .beforeAction _, s => s = .running ∨ s = .cancelled
  | .inAction _, s => s = .running ∨ s = .cancelled
  | .waiting _, s => s = .waitingFor2FA ∨ s = .cancelled
  | .gotCode _, s => s = .waitingFor2FA ∨ s = .cancelled
  | .finishingOk, s => s = .running ∨ s = .cancelled
  | .finishingErr _, s => s = .running ∨ s = .waitingFor2FA ∨ s = .cancelled
  | .resultSetOk, s => s = .running ∨ s = .cancelled
  | .resultSetErr, s => s = .running ∨ s = .waitingFor2FA ∨ s = .cancelled
  | .doneP, s => s = .completed ∨ s = .failed ∨ s = .cancelled

/-- The result field is written only at the two result-store steps. -/
def resultOK : EPC → Option TaskResult → Prop
  | .resultSetOk, r => r.isSome
  | .resultSetErr, r => r.isSome
  | .doneP, r => r.isSome
  | _, r => r = none

/-- Machine invariant tying counter, status and result. -/
def MInv (c : MConfig) : Prop := pcStatusOK c.pc c.status ∧ resultOK c.pc c.result

/-- Concrete page probe on which the first known challenge selector is
present: the counterexample page for C7. -/
def probeOtp : PageProbe :=
  ⟨fun s => .ok (s == "input[name=\x27otp\x27]"), .ok ""⟩

/-! ## Claims C1 and C3: status transitions and result atomicity -/

/-- The transition edges of spec §4.4, as listed in claim C1. -/
def claimEdges : List (TStatus × TStatus) :=
  [(.pending, .running), (.running, .waitingFor2FA), (.waitingFor2FA, .running),
   (.waitingFor2FA, .failed), (.running, .completed), (.running, .failed),
   (.running, .cancelled), (.waitingFor2FA, .cancelled)]

/-- An allowed edge of the claimed transition graph. -/
def edgeOK (a b : TStatus) : Prop := (a, b) ∈ claimEdges

/-- The machine configuration viewed as the manager's singleton registry,
as `GetTaskStatus` would snapshot it. -/
def mregistry (c : MConfig) : List (Nat × TaskRec) :=
  [(0, { status := c.status, currentAction := c.currentAction, result := c.result,
         chanInit := true, chanBuf := c.chanBuf })]

example :
    GenerateActionSequence (fun _ => .error "nope") ⟨actionClick, "", "", ""⟩ none ""
      = .error "click action requires a selector" := rfl

example :
    GenerateActionSequence (fun _ => .error "nope")
      ⟨actionInput, "#otp", tfaPlaceholder, ""⟩ none "123456"
      = .ok (.sendKeys "#otp" "123456") := rfl

example : strContainsSub "please enter the code now" "enter the code" = true := by decide

example : strContainsSub "welcome" "code" = false := by decide

example :
    (executeTaskMgr (fun _ => .error "nope") none quietEnv []).status = .completed := rfl

example :
    (executeTaskMgr (fun _ => .error "nope") none quietEnv []).result
      = some successResult := rfl

example :
    (executeTaskMgr (fun _ => .error "nope") none
        { quietEnv with runErr := fun _ => some "boom" }
        [⟨actionNavigate, "", "https://x", ""⟩]).result
      = some { success := false, message := "", data := none, error := "boom",
               customData := none } := rfl

example :
    (Provide2FACode [(0, { status := .waitingFor2FA })] 0 "654321").1 = none := rfl

example :
    lookupTask (ManagerShutdown [(0, { status := .pending })]) 0
      = some { status := .pending } := rfl

theorem minv_init (actions : List GAction) : MInv (initConfig actions) := by
  constructor <;> rfl

theorem minv_step {c c' : MConfig} (hinv : MInv c) (hs : MStep c c') : MInv c' := by
  obtain ⟨h1, h2⟩ := hinv
  cases hs
  case shutdownStep h =>
    refine ⟨?_, h2⟩
    cases hp : c.pc <;> simp_all [pcStatusOK]
  all_goals
    constructor <;> simp_all [pcStatusOK, resultOK] <;> tauto

theorem minv_reach {actions : List GAction} {c : MConfig}
    (h : MReach (initConfig actions) c) : MInv c := by
  induction h with
  | refl => exact minv_init actions
  | tail _ hs ih => exact minv_step ih hs

/-! ## Claim C6: Action Translator validation -/

/-- C6: for every Action, optional Credentials and resolved code string the
Action Translator `GenerateActionSequence` produces exactly one command or a
validation error (its `Except` codomain — it is a pure function, so there
are no side effects); a navigate action with empty value fails, click, type
and select actions with an empty selector fail, a login action with absent
or incomplete Credentials fails, and a valid login action expands into the
fixed wait-fill, wait-fill, wait-click sequence on the conventional
username, password and submit selectors. -/
theorem C6_translator_validation (pd : String → Except String Nat)
    (creds : Option Credentials) (code : String) (sel v f : String) :
    (GenerateActionSequence pd ⟨actionNavigate, sel, "", f⟩ creds code
      = .error "navigate action requires a non-empty URL value") ∧
    (v ≠ "" → GenerateActionSequence pd ⟨actionNavigate, sel, v, f⟩ creds code
      = .ok (.navigate v)) ∧
    (GenerateActionSequence pd ⟨actionClick, "", v, f⟩ creds code
      = .error "click action requires a selector") ∧
    (GenerateActionSequence pd ⟨actionInput, "", v, f⟩ creds code
      = .error "type action requires a selector") ∧
    (GenerateActionSequence pd ⟨actionSelect, "", v, f⟩ creds code
      = .error "select action requires a selector") ∧
    (GenerateActionSequence pd ⟨actionLogin, sel, v, f⟩ none code
      = .error "credentials required for login action but not provided or incomplete") ∧
    (∀ u p : String, u = "" ∨ p = "" →
      GenerateActionSequence pd ⟨actionLogin, sel, v, f⟩ (some ⟨u, p⟩) code
        = .error "credentials required for login action but not provided or incomplete") ∧
    (∀ u p : String, u ≠ "" → p ≠ "" →
      GenerateActionSequence pd ⟨actionLogin, sel, v, f⟩ (some ⟨u, p⟩) code
        = .ok (.tasks
            [.waitVisible loginUserSel, .sendKeys loginUserSel u,
             .waitVisible loginPassSel, .sendKeys loginPassSel p,
             .waitVisible loginSubmitSel, .click loginSubmitSel])) := by
  refine ⟨rfl, ?_, rfl, rfl, rfl, ?_, ?_, ?_⟩
  · intro hv
    simp +decide [GenerateActionSequence, hv]
  · simp +decide [GenerateActionSequence]
  · intro u p h
    simp +decide [GenerateActionSequence]
    tauto
  · intro u p hu hp
    simp +decide [GenerateActionSequence, hu, hp]

/-- C6 witness at concrete inputs. -/
theorem C6_translator_validation_witness :
    GenerateActionSequence (fun _ => .error "nope") ⟨actionNavigate, "", "https://x", ""⟩
        none "" = .ok (.navigate "https://x") ∧
    GenerateActionSequence (fun _ => .error "nope") ⟨actionLogin, "", "", ""⟩
        (some ⟨"u", "p"⟩) ""
      = .ok (.tasks
          [.waitVisible loginUserSel, .sendKeys loginUserSel "u",
           .waitVisible loginPassSel, .sendKeys loginPassSel "p",
           .waitVisible loginSubmitSel, .click loginSubmitSel]) :=
  ⟨((C6_translator_validation (fun _ => .error "nope") none "" "" "https://x" "").2.1
      (by decide)),
   ((C6_translator_validation (fun _ => .error "nope") (some ⟨"u", "p"⟩) "" "" "" "").2.2.2.2.2.2.2
      "u" "p" (by decide) (by decide))⟩

/-! ## Claim C8: placeholder resolution in the translator -/

/-- C8: a type action's value equal to the reserved placeholder is replaced
by the resolved code exactly when a non-empty code is supplied, is left
verbatim when the supplied code is empty, and every other value passes
through unchanged. -/
theorem C8_placeholder_resolution (pd : String → Except String Nat)
    (creds : Option Credentials) (sel v f code : String) (hsel : sel ≠ "") :
    (GenerateActionSequence pd ⟨actionInput, sel, v, f⟩ creds code
      = .ok (.sendKeys sel (resolveValue code v))) ∧
    (v = tfaPlaceholder → code ≠ "" → resolveValue code v = code) ∧
    (code = "" → resolveValue code v = v) ∧
    (v ≠ tfaPlaceholder → resolveValue code v = v) := by
  refine ⟨?_, ?_, ?_, ?_⟩
  · simp +decide [GenerateActionSequence, hsel]
  · intro hv hc
    simp [resolveValue, hv, hc]
  · intro hc
    simp [resolveValue, hc]
  · intro hv
    simp [resolveValue, hv]

/-- C8 witness at concrete inputs. -/
theorem C8_placeholder_resolution_witness :
    (GenerateActionSequence (fun _ => .error "nope")
        ⟨actionInput, "#otp", tfaPlaceholder, ""⟩ none "654321"
      = .ok (.sendKeys "#otp" (resolveValue "654321" tfaPlaceholder))) ∧
    resolveValue "654321" tfaPlaceholder = "654321" ∧
    resolveValue "" tfaPlaceholder = tfaPlaceholder :=
  ⟨(C8_placeholder_resolution (fun _ => .error "nope") none "#otp" tfaPlaceholder ""
      "654321" (by decide)).1,
   (C8_placeholder_resolution (fun _ => .error "nope") none "#otp" tfaPlaceholder ""
      "654321" (by decide)).2.1 rfl (by decide),
   (C8_placeholder_resolution (fun _ => .error "nope") none "#otp" tfaPlaceholder ""
      "" (by decide)).2.2.1 rfl⟩

/-! ## Claim C7: Challenge Detector -/

/-- A string with a long mandatory beginning differs from a shorter one. -/
theorem append_ne_of_len_lt (pre s other : String) (hlen : other.length < pre.length) :
    pre ++ s ≠ other := by
  intro h
  have hl := congrArg String.length h
  rw [String.length_append] at hl
  omega

/-- C7 counterexample: on a page whose first known challenge selector is
present, the detector reports a positive result whose classification hint
is the free-form detail string built by the source, not one of "input",
"button" or "unknown" — and the executor's selector switch consequently
takes its generic fallback branch. -/
theorem C7_counterexample :
    detect2FAPrompt probeOtp
      = (true, "Detected via selector: input[name=\x27otp\x27]") ∧
    (detect2FAPrompt probeOtp).2 ≠ "input" ∧
    (detect2FAPrompt probeOtp).2 ≠ "button" ∧
    (detect2FAPrompt probeOtp).2 ≠ "unknown" ∧
    tfaSelectorFor (detect2FAPrompt probeOtp).2 = tfaFallbackSel := by
  refine ⟨rfl, ?_, ?_, ?_, rfl⟩ <;> decide

/-- C7 amended: the detector first tries the fixed selector list in order
(the first present element short-circuits), then scans the lowercased page
text for the known phrases (first match wins), and otherwise reports no
challenge; on a positive detection the returned hint is a detail string
that is never "input" or "button", so the executor's follow-up
code-submission selector is always the generic fallback list. -/
theorem C7_detector_amended (probe : PageProbe) (sel p t e : String) :
    (tfaSelectors.find? (probeHit probe) = some sel →
      detect2FAPrompt probe = (true, "Detected via selector: " ++ sel)) ∧
    (tfaSelectors.find? (probeHit probe) = none → probe.visibleText = .ok t →
      tfaTextPatterns.find? (fun q => strContainsSub t.toLower q) = some p →
      detect2FAPrompt probe = (true, "Detected via text: " ++ p)) ∧
    (tfaSelectors.find? (probeHit probe) = none → probe.visibleText = .ok t →
      tfaTextPatterns.find? (fun q => strContainsSub t.toLower q) = none →
      detect2FAPrompt probe = (false, "")) ∧
    (tfaSelectors.find? (probeHit probe) = none → probe.visibleText = .error e →
      detect2FAPrompt probe = (false, "")) ∧
    (∀ b h, detect2FAPrompt probe = (b, h) → b = true →
      h ≠ "input" ∧ h ≠ "button" ∧ tfaSelectorFor h = tfaFallbackSel) := by
  refine ⟨?_, ?_, ?_, ?_, ?_⟩
  · intro hf
    simp [detect2FAPrompt, hf]
  · intro hf hv hp
    simp [detect2FAPrompt, hf, hv, hp]
  · intro hf hv hp
    simp [detect2FAPrompt, hf, hv, hp]
  · intro hf hv
    simp [detect2FAPrompt, hf, hv]
  · intro b h hdet hb
    subst hb
    cases hfind : tfaSelectors.find? (probeHit probe) with
    | some s =>
      simp only [detect2FAPrompt, hfind, Prod.mk.injEq] at hdet
      obtain ⟨-, hh⟩ := hdet
      subst hh
      refine ⟨append_ne_of_len_lt _ _ _ (by decide),
        append_ne_of_len_lt _ _ _ (by decide), ?_⟩
      rw [tfaSelectorFor, if_neg (append_ne_of_len_lt _ _ _ (by decide)),
        if_neg (append_ne_of_len_lt _ _ _ (by decide))]
    | none =>
      cases hvt : probe.visibleText with
      | ok t' =>
        cases hfp : tfaTextPatterns.find? (fun q => strContainsSub t'.toLower q) with
        | some q =>
          simp only [detect2FAPrompt, hfind, hvt, hfp, Prod.mk.injEq] at hdet
          obtain ⟨-, hh⟩ := hdet
          subst hh
          refine ⟨append_ne_of_len_lt _ _ _ (by decide),
            append_ne_of_len_lt _ _ _ (by decide), ?_⟩
          rw [tfaSelectorFor, if_neg (append_ne_of_len_lt _ _ _ (by decide)),
            if_neg (append_ne_of_len_lt _ _ _ (by decide))]
        | none =>
          simp [detect2FAPrompt, hfind, hvt, hfp] at hdet
      | error e' =>
        simp [detect2FAPrompt, hfind, hvt] at hdet

/-- C7 amended witness at a concrete probe and page. -/
theorem C7_detector_amended_witness :
    detect2FAPrompt probeOtp
      = (true, "Detected via selector: " ++ "input[name=\x27otp\x27]") :=
  (C7_detector_amended probeOtp "input[name=\x27otp\x27]" "" "" "").1 rfl

/-! ## Registry lookup lemmas -/

/-- Registry lookup through a key-preserving entrywise map. -/
theorem lookupTask_mapEntries (g : Nat × TaskRec → TaskRec)
    (st : List (Nat × TaskRec)) (j : Nat) :
    lookupTask (st.map (fun p => (p.1, g p))) j
      = (st.find? (fun p => p.1 == j)).map g := by
  induction st with
  | nil => rfl
  | cons hd tl ih =>
    by_cases h : hd.1 == j
    · simp [lookupTask, List.find?_cons, h]
    · simpa [lookupTask, List.find?_cons, h] using ih

/-- `updateTask` written as a key-preserving entrywise map. -/
theorem updateTask_eq (st : List (Nat × TaskRec)) (id : Nat) (t' : TaskRec) :
    updateTask st id t'
      = st.map (fun p => (p.1, if p.1 == id then t' else p.2)) := by
  unfold updateTask
  congr 1
  funext p
  by_cases h : p.1 == id <;> simp [h]

/-- `ManagerShutdown` written as a key-preserving entrywise map. -/
theorem ManagerShutdown_eq (st : List (Nat × TaskRec)) :
    ManagerShutdown st
      = st.map (fun p => (p.1,
          if p.2.status = .running ∨ p.2.status = .waitingFor2FA then
            { p.2 with status := .cancelled } else p.2)) := by
  unfold ManagerShutdown
  congr 1
  funext p
  by_cases h : p.2.status = .running ∨ p.2.status = .waitingFor2FA <;> simp [h]

/-- Lookup after `updateTask`: the entry at the updated id becomes the new
record, every other entry is untouched. -/
theorem lookupTask_updateTask (st : List (Nat × TaskRec)) (id : Nat)
    (t' : TaskRec) (j : Nat) :
    lookupTask (updateTask st id t') j
      = (lookupTask st j).map (fun t => if j == id then t' else t) := by
  rw [updateTask_eq, lookupTask_mapEntries]
  cases hfind : st.find? (fun p => p.1 == j) with
  | none => simp [lookupTask, hfind]
  | some p =>
    have hp := List.find?_some hfind
    have hpj : p.1 = j := by simpa using hp
    subst hpj
    simp [lookupTask, hfind]

/-- Lookup after `ManagerShutdown`: running and waiting entries become
cancelled, all others are untouched. -/
theorem lookupTask_ManagerShutdown (st : List (Nat × TaskRec)) (j : Nat) :
    lookupTask (ManagerShutdown st) j
      = (lookupTask st j).map (fun t =>
          if t.status = .running ∨ t.status = .waitingFor2FA then
            { t with status := .cancelled } else t) := by
  rw [ManagerShutdown_eq, lookupTask_mapEntries]
  cases hfind : st.find? (fun p => p.1 == j) with
  | none => simp [lookupTask, hfind]
  | some p => simp [lookupTask, hfind]

/-! ## Claim C2: ProvideCode error behaviour -/

/-- C2 counterexample: a registered job in waiting_for_2fa whose signal
channel has no pending receiver (the executor is not blocked on it) and an
empty capacity-one buffer: `Provide2FACode` succeeds — the code lands in
the buffer — instead of returning the claimed "no listener" error. -/
theorem C2_counterexample :
    (lookupTask [(0, { status := .waitingFor2FA })] 0).map TaskRec.status
      = some .waitingFor2FA ∧
    (lookupTask [(0, { status := .waitingFor2FA })] 0).map TaskRec.receiverWaiting
      = some false ∧
    (Provide2FACode [(0, { status := .waitingFor2FA })] 0 "654321").1 = none := by
  refine ⟨rfl, rfl, rfl⟩

/-- C2 amended: `Provide2FACode` returns not-found for an unregistered id,
a state-conflict error for a job not in waiting_for_2fa, and a
channel-not-ready error exactly when the capacity-one channel cannot
immediately accept the code (nil channel or buffer already full — a send
with no pending receiver but free buffer space succeeds); every error case
returns the registry unchanged, and even a successful call changes no job's
status, result or current-action index (only the channel buffer). -/
theorem C2_provide_code_amended (st : List (Nat × TaskRec)) (id : Nat)
    (code : String) :
    (lookupTask st id = none →
      Provide2FACode st id code
        = (some ("task with ID " ++ toString id ++ " not found"), st)) ∧
    (∀ t, lookupTask st id = some t → t.status ≠ .waitingFor2FA →
      Provide2FACode st id code
        = (some ("task is not waiting for 2FA code (status: "
            ++ statusStr t.status ++ ")"), st)) ∧
    (∀ t, lookupTask st id = some t → t.status = .waitingFor2FA →
      ¬(t.chanInit = true ∧ t.chanBuf = none) →
      Provide2FACode st id code
        = (some "failed to provide 2FA code, channel not ready", st)) ∧
    ((Provide2FACode st id code).1.isSome → (Provide2FACode st id code).2 = st) ∧
    (∀ j, ((lookupTask (Provide2FACode st id code).2 j).map TaskRec.status
        = (lookupTask st j).map TaskRec.status) ∧
      ((lookupTask (Provide2FACode st id code).2 j).map TaskRec.result
        = (lookupTask st j).map TaskRec.result) ∧
      ((lookupTask (Provide2FACode st id code).2 j).map TaskRec.currentAction
        = (lookupTask st j).map TaskRec.currentAction)) := by
  refine ⟨?_, ?_, ?_, ?_, ?_⟩
  · intro h
    simp [Provide2FACode, h]
  · intro t h hst
    simp [Provide2FACode, h, hst]
  · intro t h hst hch
    unfold Provide2FACode
    simp only [h]
    rw [if_neg (not_not_intro hst), if_neg hch]
  · intro hs
    unfold Provide2FACode at hs ⊢
    cases h : lookupTask st id with
    | none => simp [h]
    | some t =>
      simp only [h] at hs ⊢
      by_cases hst : t.status ≠ .waitingFor2FA
      · rw [if_pos hst]
      · rw [if_neg hst] at hs ⊢
        by_cases hch : t.chanInit = true ∧ t.chanBuf = none
        · rw [if_pos hch] at hs
          simp at hs
        · rw [if_neg hch]
  · intro j
    unfold Provide2FACode
    cases h : lookupTask st id with
    | none => simp [h]
    | some t =>
      simp only [h]
      by_cases hst : t.status ≠ .waitingFor2FA
      · rw [if_pos hst]
        simp
      · rw [if_neg hst]
        by_cases hch : t.chanInit = true ∧ t.chanBuf = none
        · rw [if_pos hch]
          simp only [lookupTask_updateTask]
          by_cases hj : (j == id) = true
          · have hji : j = id := by simpa using hj
            subst hji
            rw [h]
            simp [hj]
          · cases lookupTask st j <;> simp [hj]
        · rw [if_neg hch]
          simp

/-- C2 amended witness: the three error branches at concrete registries,
each leaving the registry unchanged. -/
theorem C2_provide_code_amended_witness :
    Provide2FACode [] 5 "1" = (some "task with ID 5 not found", []) ∧
    Provide2FACode [(0, { status := .pending })] 0 "1"
      = (some "task is not waiting for 2FA code (status: pending)",
         [(0, { status := .pending })]) ∧
    Provide2FACode [(0, { status := .waitingFor2FA, chanBuf := some "x" })] 0 "1"
      = (some "failed to provide 2FA code, channel not ready",
         [(0, { status := .waitingFor2FA, chanBuf := some "x" })]) :=
  ⟨(C2_provide_code_amended [] 5 "1").1 rfl,
   (C2_provide_code_amended [(0, { status := .pending })] 0 "1").2.1
     { status := .pending } rfl (by decide),
   (C2_provide_code_amended [(0, { status := .waitingFor2FA, chanBuf := some "x" })]
       0 "1").2.2.1
     { status := .waitingFor2FA, chanBuf := some "x" } rfl rfl (by decide)⟩

/-! ## Claim C5: Shutdown -/

/-- C5 counterexample: a registered job still Pending at shutdown time is
left Pending — `Shutdown` does not cancel it. -/
theorem C5_counterexample :
    lookupTask (ManagerShutdown [(0, { status := .pending })]) 0
      = some { status := .pending } ∧
    ((({ status := .pending } : TaskRec)).status = TStatus.cancelled) = False := by
  exact ⟨rfl, by decide⟩

/-- C5 amended: after `Shutdown`, exactly the jobs whose status was Running
or AwaitingCode are Cancelled; every other job (in particular a still
Pending one) keeps its previous record, and no registry entry is dropped. -/
theorem C5_shutdown_amended (st : List (Nat × TaskRec)) (j : Nat) :
    (lookupTask (ManagerShutdown st) j
      = (lookupTask st j).map (fun t =>
          if t.status = .running ∨ t.status = .waitingFor2FA then
            { t with status := .cancelled } else t)) ∧
    (ManagerShutdown st).length = st.length := by
  refine ⟨lookupTask_ManagerShutdown st j, ?_⟩
  rw [ManagerShutdown_eq, List.length_map]

/-! ## Executor trace lemmas -/

/-- Events emitted by the challenge branch: only status writes and, when a
code was actually received, the code entry at this action index with the
selector chosen by the prompt-type switch. -/
theorem execWith2FA_mem (env : ExecEnv) (i : Nat) (ev : ExecEv)
    (h : ev ∈ (execWith2FA env i).1) :
    (∃ st, ev = .statusW st) ∨
      ∃ sel code, ev = .codeEntry i sel code ∧ env.codeWait i = .ok code ∧
        ∃ hint, env.detect i = .ok (true, hint) ∧ sel = tfaSelectorFor hint := by
  cases hre : env.runErr i with
  | some e => simp [execWith2FA, hre] at h
  | none =>
    cases hd : env.detect i with
    | error e => simp [execWith2FA, hre, hd] at h
    | ok pr =>
      obtain ⟨b, hint⟩ := pr
      cases b with
      | false => simp [execWith2FA, hre, hd] at h
      | true =>
        cases hw : env.codeWait i with
        | error e =>
          simp [execWith2FA, hre, hd, hw] at h
          exact Or.inl ⟨_, h⟩
        | ok code =>
          by_cases hsel : tfaSelectorFor hint = ""
          · simp [execWith2FA, hre, hd, hw, hsel] at h
            rcases h with h | h <;> exact Or.inl ⟨_, h⟩
          · cases hee : env.entryErr i with
            | some e =>
              simp [execWith2FA, hre, hd, hw, hsel, hee] at h
              rcases h with h | h
              · exact Or.inl ⟨_, h⟩
              · exact Or.inr ⟨_, _, h, rfl, hint, rfl, rfl⟩
            | none =>
              simp [execWith2FA, hre, hd, hw, hsel, hee] at h
              rcases h with h | h | h
              · exact Or.inl ⟨_, h⟩
              · exact Or.inr ⟨_, _, h, rfl, hint, rfl, rfl⟩
              · exact Or.inl ⟨_, h⟩

/-- Loop trace invariant: every translator event at index `j` was produced
by translating the action at position `j` with the empty resolved code
string, bounded by the final current-action index; every code-entry event
records a code actually received at a detected challenge, entered at the
switch-chosen selector; and on failure the browser-level result names the
failing index (the final current-action value). -/
theorem execLoop_trace (pd : String → Except String Nat)
    (creds : Option Credentials) (env : ExecEnv) :
    ∀ (l : List GAction) (i cur0 : Nat) (r : TaskResult) (err : Option String)
      (cur : Nat) (evs : List ExecEv),
    execLoop pd creds env i cur0 l = (r, err, cur, evs) →
    (cur = cur0 ∨ i ≤ cur) ∧
    (∀ j cmd, ExecEv.gen j cmd ∈ evs →
       i ≤ j ∧ j ≤ cur ∧ ∃ a, l.get? (j - i) = some a ∧
         GenerateActionSequence pd a creds "" = .ok cmd) ∧
    (∀ j sel code, ExecEv.codeEntry j sel code ∈ evs →
       i ≤ j ∧ j ≤ cur ∧ env.codeWait j = .ok code ∧
         ∃ hint, env.detect j = .ok (true, hint) ∧ sel = tfaSelectorFor hint) ∧
    (∀ e, err = some e →
       i ≤ cur ∧ (r = genFailResult e ∨ ∃ a, r = runFailResult cur a e)) := by
  intro l
  induction l with
  | nil =>
    intro i cur0 r err cur evs h
    simp only [execLoop, Prod.mk.injEq] at h
    obtain ⟨rfl, rfl, rfl, rfl⟩ := h
    refine ⟨Or.inl rfl, ?_, ?_, ?_⟩
    · intro j cmd hj
      simp at hj
    · intro j sel code hj
      simp at hj
    · intro e he
      simp at he
  | cons a rest ih =>
    intro i cur0 r err cur evs h
    cases hg : GenerateActionSequence pd a creds "" with
    | error e0 =>
      simp only [execLoop, hg, Prod.mk.injEq] at h
      obtain ⟨rfl, rfl, rfl, rfl⟩ := h
      refine ⟨Or.inr le_rfl, ?_, ?_, ?_⟩
      · intro j cmd hj
        simp at hj
      · intro j sel code hj
        simp at hj
      · intro e he
        obtain rfl : e0 = e := by simpa using he
        exact ⟨le_rfl, Or.inl rfl⟩
    | ok cmd0 =>
      by_cases hnav : a.type = actionNavigate ∨ a.type = actionClick
      · cases hw : execWith2FA env i with
        | mk evsW errW =>
          have hmemW : ∀ ev, ev ∈ evsW → ev ∈ (execWith2FA env i).1 := by
            intro ev hev
            rw [hw]
            exact hev
          cases errW with
          | some e0 =>
            simp only [execLoop, hg, hw] at h
            rw [if_pos hnav] at h
            simp only [Prod.mk.injEq] at h
            obtain ⟨rfl, rfl, rfl, rfl⟩ := h
            refine ⟨Or.inr le_rfl, ?_, ?_, ?_⟩
            · intro j cmd hj
              rcases List.mem_cons.mp hj with hj | hj
              · injection hj with h1 h2
                subst h1
                subst h2
                exact ⟨le_rfl, le_rfl, a, by simp, hg⟩
              · rcases execWith2FA_mem env i _ (hmemW _ hj) with ⟨st, hst⟩ | ⟨s, c, hce, -⟩
                · cases hst
                · cases hce
            · intro j sel code hj
              rcases List.mem_cons.mp hj with hj | hj
              · cases hj
              · rcases execWith2FA_mem env i _ (hmemW _ hj) with ⟨st, hst⟩ |
                  ⟨s, c, hce, hcw, hint, hdet, hsel⟩
                · cases hst
                · injection hce with h1 h2 h3
                  subst h1
                  subst h2
                  subst h3
                  exact ⟨le_rfl, le_rfl, hcw, hint, hdet, hsel⟩
            · intro e he
              obtain rfl : e0 = e := by simpa using he
              exact ⟨le_rfl, Or.inr ⟨a, rfl⟩⟩
          | none =>
            cases hrec : execLoop pd creds env (i + 1) i rest with
            | mk r' rest' =>
              obtain ⟨err', cur', evs2⟩ := rest'
              simp only [execLoop, hg, hw, hrec] at h
              rw [if_pos hnav] at h
              simp only [Prod.mk.injEq] at h
              obtain ⟨rfl, rfl, rfl, rfl⟩ := h
              obtain ⟨hC, hA, hB, hD⟩ := ih (i + 1) i r' err' cur' evs2 hrec
              have hicur : i ≤ cur' := by
                rcases hC with rfl | hC
                · exact le_rfl
                · omega
              refine ⟨Or.inr hicur, ?_, ?_, ?_⟩
              · intro j cmd hj
                rcases List.mem_cons.mp hj with hj | hj
                · injection hj with h1 h2
                  subst h1
                  subst h2
                  exact ⟨le_rfl, hicur, a, by simp, hg⟩
                · rcases List.mem_append.mp hj with hj | hj
                  · rcases execWith2FA_mem env i _ (hmemW _ hj) with ⟨st, hst⟩ | ⟨s, c, hce, -⟩
                    · cases hst
                    · cases hce
                  · obtain ⟨h1, h2, a', ha', hga⟩ := hA j cmd hj
                    refine ⟨by omega, h2, a', ?_, hga⟩
                    have hji : j - i = (j - (i + 1)) + 1 := by omega
                    rw [hji, List.get?_cons_succ]
                    exact ha'
              · intro j sel code hj
                rcases List.mem_cons.mp hj with hj | hj
                · cases hj
                · rcases List.mem_append.mp hj with hj | hj
                  · rcases execWith2FA_mem env i _ (hmemW _ hj) with ⟨st, hst⟩ |
                      ⟨s, c, hce, hcw, hint, hdet, hsel⟩
                    · cases hst
                    · injection hce with h1 h2 h3
                      subst h1
                      subst h2
                      subst h3
                      exact ⟨le_rfl, hicur, hcw, hint, hdet, hsel⟩
                  · obtain ⟨h1, h2, h3⟩ := hB j sel code hj
                    exact ⟨by omega, h2, h3⟩
              · intro e he
                obtain ⟨h1, h2⟩ := hD e he
                exact ⟨by omega, h2⟩
      · cases hre : env.runErr i with
        | some e0 =>
          simp only [execLoop, hg, hre] at h
          rw [if_neg hnav] at h
          simp only [Prod.mk.injEq] at h
          obtain ⟨rfl, rfl, rfl, rfl⟩ := h
          refine ⟨Or.inr le_rfl, ?_, ?_, ?_⟩
          · intro j cmd hj
            rcases List.mem_cons.mp hj with hj | hj
            · injection hj with h1 h2
              subst h1
              subst h2
              exact ⟨le_rfl, le_rfl, a, by simp, hg⟩
            · simp at hj
          · intro j sel code hj
            rcases List.mem_cons.mp hj with hj | hj
            · cases hj
            · simp at hj
          · intro e he
            obtain rfl : e0 = e := by simpa using he
            exact ⟨le_rfl, Or.inr ⟨a, rfl⟩⟩
        | none =>
          cases hrec : execLoop pd creds env (i + 1) i rest with
          | mk r' rest' =>
            obtain ⟨err', cur', evs2⟩ := rest'
            simp only [execLoop, hg, hre, hrec] at h
            rw [if_neg hnav] at h
            simp only [Prod.mk.injEq] at h
            obtain ⟨rfl, rfl, rfl, rfl⟩ := h
            obtain ⟨hC, hA, hB, hD⟩ := ih (i + 1) i r' err' cur' evs2 hrec
            have hicur : i ≤ cur' := by
              rcases hC with rfl | hC
              · exact le_rfl
              · omega
            refine ⟨Or.inr hicur, ?_, ?_, ?_⟩
            · intro j cmd hj
              rcases List.mem_cons.mp hj with hj | hj
              · injection hj with h1 h2
                subst h1
                subst h2
                exact ⟨le_rfl, hicur, a, by simp, hg⟩
              · obtain ⟨h1, h2, a', ha', hga⟩ := hA j cmd hj
                refine ⟨by omega, h2, a', ?_, hga⟩
                have hji : j - i = (j - (i + 1)) + 1 := by omega
                rw [hji, List.get?_cons_succ]
                exact ha'
            · intro j sel code hj
              rcases List.mem_cons.mp hj with hj | hj
              · cases hj
              · obtain ⟨h1, h2, h3⟩ := hB j sel code hj
                exact ⟨by omega, h2, h3⟩
            · intro e he
              obtain ⟨h1, h2⟩ := hD e he
              exact ⟨by omega, h2⟩

/-! ## Claim C4: failure handling -/

/-- C4 counterexample: action 0 (`navigate`) fails with "boom". The browser
layer builds a result whose message names the failing index
("Failed on action 0: navigate"), but the manager discards it and stores a
fresh `TaskResult` holding only the error text: the stored Result's message
is empty and no field of it contains the failing action's index. -/
theorem C4_counterexample :
    (executeTaskMgr (fun _ => .error "nope") none
        { quietEnv with runErr := fun _ => some "boom" }
        [⟨actionNavigate, "", "https://x", ""⟩]).status = .failed ∧
    (executeTaskMgr (fun _ => .error "nope") none
        { quietEnv with runErr := fun _ => some "boom" }
        [⟨actionNavigate, "", "https://x", ""⟩]).result
      = some { success := false, message := "", data := none, error := "boom",
               customData := none } ∧
    strContainsSub (mgrErrResult "boom").message "0" = false ∧
    strContainsSub (mgrErrResult "boom").error "0" = false ∧
    (mgrErrResult "boom").data = none ∧
    (ExecuteTask (fun _ => .error "nope") none
        { quietEnv with runErr := fun _ => some "boom" }
        [⟨actionNavigate, "", "https://x", ""⟩]).1
      = some (runFailResult 0 ⟨actionNavigate, "", "https://x", ""⟩ "boom") ∧
    (runFailResult 0 ⟨actionNavigate, "", "https://x", ""⟩ "boom").message
      = "Failed on action 0: navigate" ∧
    mgrErrResult "boom" ≠ runFailResult 0 ⟨actionNavigate, "", "https://x", ""⟩ "boom" := by
  refine ⟨rfl, rfl, by decide, by decide, rfl, rfl, rfl, by decide⟩

/-- C4 amended: when any action execution (or translation) returns an
error, the remaining actions are not attempted (all emitted events stay at
indices up to the final current-action index, which is the failing index)
and the job is marked Failed — but the stored Result is the manager's fresh
`TaskResult` carrying only the error text; the index-bearing result built
by the browser layer (`runFailResult`, whose message names the failing
index) is discarded. -/
theorem C4_failure_amended (pd : String → Except String Nat)
    (creds : Option Credentials) (env : ExecEnv) (actions : List GAction)
    (r : Option TaskResult) (e : String) (cur : Nat) (evs : List ExecEv)
    (h : ExecuteTask pd creds env actions = (r, some e, cur, evs)) :
    executeTaskMgr pd creds env actions
      = ⟨.failed, some (mgrErrResult e), cur, evs⟩ ∧
    (∀ j cmd, ExecEv.gen j cmd ∈ evs → j ≤ cur) ∧
    (∀ j sel code, ExecEv.codeEntry j sel code ∈ evs → j ≤ cur) ∧
    (r = none ∨ r = some (genFailResult e) ∨
      ∃ a, r = some (runFailResult cur a e)) := by
  refine ⟨?_, ?_⟩
  · unfold executeTaskMgr
    rw [h]
  · cases hacq : env.acquireErr with
    | some e0 =>
      simp only [ExecuteTask, hacq, Prod.mk.injEq] at h
      obtain ⟨rfl, -, rfl, rfl⟩ := h
      refine ⟨?_, ?_, Or.inl rfl⟩
      · intro j cmd hj
        simp at hj
      · intro j sel code hj
        simp at hj
    | none =>
      cases hloop : execLoop pd creds env 0 0 actions with
      | mk r0 rest0 =>
        obtain ⟨err0, cur0, evs0⟩ := rest0
        simp only [ExecuteTask, hacq, hloop, Prod.mk.injEq] at h
        obtain ⟨rfl, herr, rfl, rfl⟩ := h
        subst herr
        obtain ⟨-, hA, hB, hD⟩ :=
          execLoop_trace pd creds env actions 0 0 r0 (some e) cur0 evs0 hloop
        refine ⟨?_, ?_, ?_⟩
        · intro j cmd hj
          exact (hA j cmd hj).2.1
        · intro j sel code hj
          exact (hB j sel code hj).2.1
        · rcases (hD e rfl).2 with hr | ⟨a, hr⟩
          · exact Or.inr (Or.inl (by rw [hr]))
          · exact Or.inr (Or.inr ⟨a, by rw [hr]⟩)

/-- C4 amended witness at the concrete failing run. -/
theorem C4_failure_amended_witness :
    executeTaskMgr (fun _ => .error "nope") none
        { quietEnv with runErr := fun _ => some "boom" }
        [⟨actionNavigate, "", "https://x", ""⟩]
      = ⟨.failed, some (mgrErrResult "boom"), 0,
         [.gen 0 (.navigate "https://x")]⟩ :=
  (C4_failure_amended (fun _ => .error "nope") none
      { quietEnv with runErr := fun _ => some "boom" }
      [⟨actionNavigate, "", "https://x", ""⟩]
      (some (runFailResult 0 ⟨actionNavigate, "", "https://x", ""⟩ "boom"))
      "boom" 0 [.gen 0 (.navigate "https://x")] rfl).1

/-! ## Claim C9: empty action list -/

/-- C9 counterexample: even with an empty action list the job can fail —
when the browser-slot acquisition errors (e.g. its five-minute context
deadline expires with every slot held), `ExecuteTask` returns before the
loop and the manager marks the job Failed, not Completed. -/
theorem C9_counterexample :
    (executeTaskMgr (fun _ => .error "nope") none
        { quietEnv with acquireErr := some "context deadline exceeded" } []).status
      = .failed ∧
    (executeTaskMgr (fun _ => .error "nope") none
        { quietEnv with acquireErr := some "context deadline exceeded" } []).result
      = some (mgrErrResult
          "failed to acquire browser slot: context deadline exceeded") ∧
    TStatus.failed ≠ TStatus.completed := by
  exact ⟨rfl, rfl, by decide⟩

/-- C9 amended: a job with an empty action list completes with the success
result — which carries no per-action data — whenever the browser-slot
acquisition (its only effectful dependency before the loop) succeeds; when
acquisition fails, the job is marked Failed with the acquisition error,
even though it has no actions. -/
theorem C9_empty_actions (pd : String → Except String Nat)
    (creds : Option Credentials) (env : ExecEnv) :
    (env.acquireErr = none →
      executeTaskMgr pd creds env [] = ⟨.completed, some successResult, 0, []⟩) ∧
    (∀ e, env.acquireErr = some e →
      executeTaskMgr pd creds env []
        = ⟨.failed,
           some (mgrErrResult ("failed to acquire browser slot: " ++ e)), 0, []⟩) ∧
    successResult.success = true ∧ successResult.data = none ∧
    successResult.customData = none ∧ successResult.error = "" ∧
    successResult.message = "Task completed successfully" := by
  refine ⟨?_, ?_, rfl, rfl, rfl, rfl, rfl⟩
  · intro h
    simp only [executeTaskMgr, ExecuteTask, h, execLoop]
  · intro e he
    simp only [executeTaskMgr, ExecuteTask, he]

/-- C9 amended witness: both branches at concrete environments. -/
theorem C9_empty_actions_witness :
    (executeTaskMgr (fun _ => .error "nope") none quietEnv []
      = ⟨.completed, some successResult, 0, []⟩) ∧
    (executeTaskMgr (fun _ => .error "nope") none
        { quietEnv with acquireErr := some "context deadline exceeded" } []
      = ⟨.failed,
         some (mgrErrResult
           ("failed to acquire browser slot: " ++ "context deadline exceeded")),
         0, []⟩) :=
  ⟨(C9_empty_actions (fun _ => .error "nope") none quietEnv).1 rfl,
   (C9_empty_actions (fun _ => .error "nope") none
       { quietEnv with acquireErr := some "context deadline exceeded" }).2.1
     "context deadline exceeded" rfl⟩

/-! ## Claim C10: 2FA code routing -/

/-- C10: the executor invokes the Action Translator with the empty resolved
code string for every action it runs (every emitted translator event is the
translation of the action at that index with code ""), so a type action
whose value is the reserved placeholder sends the literal placeholder text;
a code provided through `Provide2FACode` is delivered only by the challenge
branch's code entry, at the selector chosen by the prompt-type switch from
the detector's hint — never by placeholder substitution. -/
theorem C10_code_routing (pd : String → Except String Nat)
    (creds : Option Credentials) (env : ExecEnv) (actions : List GAction)
    (r : Option TaskResult) (err : Option String) (cur : Nat)
    (evs : List ExecEv)
    (h : ExecuteTask pd creds env actions = (r, err, cur, evs)) :
    (∀ j cmd, ExecEv.gen j cmd ∈ evs →
       ∃ a, actions.get? j = some a ∧
         GenerateActionSequence pd a creds "" = .ok cmd) ∧
    (∀ s f : String, s ≠ "" →
       GenerateActionSequence pd ⟨actionInput, s, tfaPlaceholder, f⟩ creds ""
         = .ok (.sendKeys s tfaPlaceholder)) ∧
    (∀ j sel code, ExecEv.codeEntry j sel code ∈ evs →
       env.codeWait j = .ok code ∧
         ∃ hint, env.detect j = .ok (true, hint) ∧ sel = tfaSelectorFor hint) := by
  have hplaceholder : ∀ s f : String, s ≠ "" →
      GenerateActionSequence pd ⟨actionInput, s, tfaPlaceholder, f⟩ creds ""
        = .ok (.sendKeys s tfaPlaceholder) := by
    intro s f hs
    simp +decide [GenerateActionSequence, hs, resolveValue]
  cases hacq : env.acquireErr with
  | some e0 =>
    simp only [ExecuteTask, hacq, Prod.mk.injEq] at h
    obtain ⟨-, -, -, rfl⟩ := h
    refine ⟨?_, hplaceholder, ?_⟩
    · intro j cmd hj
      simp at hj
    · intro j sel code hj
      simp at hj
  | none =>
    cases hloop : execLoop pd creds env 0 0 actions with
    | mk r0 rest0 =>
      obtain ⟨err0, cur0, evs0⟩ := rest0
      simp only [ExecuteTask, hacq, hloop, Prod.mk.injEq] at h
      obtain ⟨-, -, -, rfl⟩ := h
      obtain ⟨-, hA, hB, -⟩ :=
        execLoop_trace pd creds env actions 0 0 r0 err0 cur0 evs0 hloop
      refine ⟨?_, hplaceholder, ?_⟩
      · intro j cmd hj
        obtain ⟨-, -, a, ha, hga⟩ := hA j cmd hj
        rw [Nat.sub_zero] at ha
        exact ⟨a, ha, hga⟩
      · intro j sel code hj
        obtain ⟨-, -, hcw, hint, hdet, hsel⟩ := hB j sel code hj
        exact ⟨hcw, hint, hdet, hsel⟩

/-- C10 witness: a concrete run in which a challenge fires after the
navigate action and the code "654321" is delivered at the fallback
selector, while the translator was called with the empty code string. -/
theorem C10_code_routing_witness :
    (∃ a, ([⟨actionNavigate, "", "https://x", ""⟩] : List GAction).get? 0
        = some a ∧
      GenerateActionSequence (fun _ => .error "nope") a none ""
        = .ok (.navigate "https://x")) ∧
    (GenerateActionSequence (fun _ => .error "nope")
        ⟨actionInput, "#c", tfaPlaceholder, ""⟩ none ""
      = .ok (.sendKeys "#c" tfaPlaceholder)) ∧
    (env2fa.codeWait 0 = .ok "654321" ∧
      ∃ hint, env2fa.detect 0 = .ok (true, hint) ∧
        tfaFallbackSel = tfaSelectorFor hint) := by
  obtain ⟨hA, hP, hB⟩ := C10_code_routing (fun _ => .error "nope") none env2fa
      [⟨actionNavigate, "", "https://x", ""⟩] (some successResult) none 0
      [.gen 0 (.navigate "https://x"), .statusW .waitingFor2FA,
       .codeEntry 0 tfaFallbackSel "654321", .statusW .running] rfl
  exact ⟨hA 0 (.navigate "https://x") (List.mem_cons_self _ _),
         hP "#c" "" (by decide),
         hB 0 tfaFallbackSel "654321"
           (List.mem_cons_of_mem _ (List.mem_cons_of_mem _
             (List.mem_cons_self _ _)))⟩

/-- C1 counterexample: with an empty action list, the executor finishes,
writes its success result, a concurrent `Shutdown` then flips the
still-Running job to Cancelled, and the executor's final status store
overwrites the terminal Cancelled with Completed — a transition out of a
terminal status that is not an edge of the claimed graph. -/
theorem C1_counterexample :
    ∃ c c' : MConfig, MReach (initConfig []) c ∧ MStep c c' ∧
      c.status = .cancelled ∧ c'.status = .completed := by
  have h1 : MStep (initConfig []) ⟨[], .running, 0, none, none, .acquireP⟩ :=
    MStep.startExec _ rfl
  have h2 : MStep ⟨[], .running, 0, none, none, .acquireP⟩
      ⟨[], .running, 0, none, none, .beforeAction 0⟩ := MStep.acquireOk _ rfl
  have h3 : MStep ⟨[], .running, 0, none, none, .beforeAction 0⟩
      ⟨[], .running, 0, none, none, .finishingOk⟩ :=
    MStep.loopExit _ 0 rfl (by decide)
  have h4 : MStep ⟨[], .running, 0, none, none, .finishingOk⟩
      ⟨[], .running, 0, some successResult, none, .resultSetOk⟩ :=
    MStep.finishOkResult _ rfl
  have h5 : MStep ⟨[], .running, 0, some successResult, none, .resultSetOk⟩
      ⟨[], .cancelled, 0, some successResult, none, .resultSetOk⟩ :=
    MStep.shutdownStep _ (Or.inl rfl)
  have h6 : MStep ⟨[], .cancelled, 0, some successResult, none, .resultSetOk⟩
      ⟨[], .completed, 0, some successResult, none, .doneP⟩ :=
    MStep.finishOkStatus _ rfl
  refine ⟨_, _, ?_, h6, rfl, rfl⟩
  exact Relation.ReflTransGen.tail (Relation.ReflTransGen.tail
    (Relation.ReflTransGen.tail (Relation.ReflTransGen.tail
      (Relation.ReflTransGen.tail Relation.ReflTransGen.refl h1) h2) h3) h4) h5

/-- C1 amended: every reachable step either leaves the status unchanged,
follows an edge of the §4.4 graph, or starts from Cancelled — the executor
does not re-check the status before its unlocked challenge-branch writes
and its final status store, so a Cancelled job (and only a Cancelled one)
can be overwritten; Completed and Failed are genuinely terminal. -/
theorem C1_transitions_amended (actions : List GAction) (c c' : MConfig)
    (hreach : MReach (initConfig actions) c) (hs : MStep c c') :
    (c'.status = c.status ∨ edgeOK c.status c'.status ∨ c.status = .cancelled) ∧
    ((c.status = .completed ∨ c.status = .failed) → c'.status = c.status) := by
  obtain ⟨hpc, -⟩ := minv_reach hreach
  cases hs
  case startExec h =>
    rw [h] at hpc
    simp only [pcStatusOK] at hpc
    constructor
    · right
      left
      rw [hpc]
      show edgeOK .pending .running
      simp [edgeOK, claimEdges]
    · intro hcf
      rw [hpc] at hcf
      rcases hcf with hcf | hcf <;> exact absurd hcf (by decide)
  case detectHit i h hnav =>
    rw [h] at hpc
    simp only [pcStatusOK] at hpc
    constructor
    · rcases hpc with hst | hst
      · right
        left
        rw [hst]
        show edgeOK .running .waitingFor2FA
        simp [edgeOK, claimEdges]
      · right
        right
        exact hst
    · intro hcf
      rcases hpc with hst | hst <;> rcases hcf with hcf | hcf <;>
        (rw [hst] at hcf; exact absurd hcf (by decide))
  case entryOk i h =>
    rw [h] at hpc
    simp only [pcStatusOK] at hpc
    constructor
    · rcases hpc with hst | hst
      · right
        left
        rw [hst]
        show edgeOK .waitingFor2FA .running
        simp [edgeOK, claimEdges]
      · right
        right
        exact hst
    · intro hcf
      rcases hpc with hst | hst <;> rcases hcf with hcf | hcf <;>
        (rw [hst] at hcf; exact absurd hcf (by decide))
  case finishOkStatus h =>
    rw [h] at hpc
    simp only [pcStatusOK] at hpc
    constructor
    · rcases hpc with hst | hst
      · right
        left
        rw [hst]
        show edgeOK .running .completed
        simp [edgeOK, claimEdges]
      · right
        right
        exact hst
    · intro hcf
      rcases hpc with hst | hst <;> rcases hcf with hcf | hcf <;>
        (rw [hst] at hcf; exact absurd hcf (by decide))
  case finishErrStatus h =>
    rw [h] at hpc
    simp only [pcStatusOK] at hpc
    constructor
    · rcases hpc with hst | hst | hst
      · right
        left
        rw [hst]
        show edgeOK .running .failed
        simp [edgeOK, claimEdges]
      · right
        left
        rw [hst]
        show edgeOK .waitingFor2FA .failed
        simp [edgeOK, claimEdges]
      · right
        right
        exact hst
    · intro hcf
      rcases hpc with hst | hst | hst <;> rcases hcf with hcf | hcf <;>
        (rw [hst] at hcf; exact absurd hcf (by decide))
  case shutdownStep h =>
    constructor
    · rcases h with hst | hst
      · right
        left
        rw [hst]
        show edgeOK .running .cancelled
        simp [edgeOK, claimEdges]
      · right
        left
        rw [hst]
        show edgeOK .waitingFor2FA .cancelled
        simp [edgeOK, claimEdges]
    · intro hcf
      rcases h with hst | hst <;> rcases hcf with hcf | hcf <;>
        (rw [hst] at hcf; exact absurd hcf (by decide))
  all_goals exact ⟨Or.inl rfl, fun _ => rfl⟩

/-- C1 amended witness: the first step of a fresh job. -/
theorem C1_transitions_amended_witness :
    ((⟨[], .running, 0, none, none, .acquireP⟩ : MConfig).status
        = (initConfig []).status ∨
      edgeOK (initConfig []).status
        (⟨[], .running, 0, none, none, .acquireP⟩ : MConfig).status ∨
      (initConfig []).status = .cancelled) ∧
    (((initConfig []).status = .completed ∨ (initConfig []).status = .failed) →
      (⟨[], .running, 0, none, none, .acquireP⟩ : MConfig).status
        = (initConfig []).status) :=
  C1_transitions_amended [] (initConfig [])
    ⟨[], .running, 0, none, none, .acquireP⟩
    Relation.ReflTransGen.refl (MStep.startExec _ rfl)

/-- C3 counterexample: the executor's result store precedes its terminal
status store and neither is guarded against concurrent reads, so a
reachable configuration has the Result already set while the Status is
still Running — and `GetTaskStatus` snapshots exactly that. -/
theorem C3_counterexample :
    ∃ c : MConfig, MReach (initConfig []) c ∧
      GetTaskStatus (mregistry c) 0
        = .ok { status := .running, currentAction := 0,
                result := some successResult, chanInit := true,
                chanBuf := none, receiverWaiting := false } ∧
      c.status = .running ∧ c.result = some successResult := by
  refine ⟨⟨[], .running, 0, some successResult, none, .resultSetOk⟩, ?_, rfl, rfl, rfl⟩
  have h1 : MStep (initConfig []) ⟨[], .running, 0, none, none, .acquireP⟩ :=
    MStep.startExec _ rfl
  have h2 : MStep ⟨[], .running, 0, none, none, .acquireP⟩
      ⟨[], .running, 0, none, none, .beforeAction 0⟩ := MStep.acquireOk _ rfl
  have h3 : MStep ⟨[], .running, 0, none, none, .beforeAction 0⟩
      ⟨[], .running, 0, none, none, .finishingOk⟩ :=
    MStep.loopExit _ 0 rfl (by decide)
  have h4 : MStep ⟨[], .running, 0, none, none, .finishingOk⟩
      ⟨[], .running, 0, some successResult, none, .resultSetOk⟩ :=
    MStep.finishOkResult _ rfl
  exact Relation.ReflTransGen.tail (Relation.ReflTransGen.tail
    (Relation.ReflTransGen.tail (Relation.ReflTransGen.tail
      Relation.ReflTransGen.refl h1) h2) h3) h4

/-- C3 amended: along every reachable execution the Result starts unset, is
never mutated once set, and is set by the time the executor goroutine
finishes — it is written exactly once — but the write is not atomic with
the terminal status transition: it strictly precedes it (see the
counterexample exposing Result set while Status is Running). -/
theorem C3_result_amended (actions : List GAction) (c c' : MConfig)
    (r : TaskResult) (hreach : MReach (initConfig actions) c) (hs : MStep c c') :
    (c.result = some r → c'.result = some r) ∧
    (c'.pc = .doneP → (c'.result).isSome = true) ∧
    (initConfig actions).result = none := by
  obtain ⟨-, h2⟩ := minv_reach hreach
  have h2' := (minv_step (minv_reach hreach) hs).2
  refine ⟨?_, ?_, rfl⟩
  · intro hr
    cases hs
    case finishOkResult h =>
      rw [h] at h2
      simp only [resultOK] at h2
      rw [h2] at hr
      cases hr
    case finishErrResult e h =>
      rw [h] at h2
      simp only [resultOK] at h2
      rw [h2] at hr
      cases hr
    all_goals exact hr
  · intro hd
    rw [hd] at h2'
    simp only [resultOK] at h2'
    exact h2'

/-- C3 amended witness: a concrete reachable step preserving a set result. -/
theorem C3_result_amended_witness :
    (⟨[], .cancelled, 0, some successResult, none, .resultSetOk⟩ : MConfig).result
      = some successResult := by
  have h1 : MStep (initConfig []) ⟨[], .running, 0, none, none, .acquireP⟩ :=
    MStep.startExec _ rfl
  have h2 : MStep ⟨[], .running, 0, none, none, .acquireP⟩
      ⟨[], .running, 0, none, none, .beforeAction 0⟩ := MStep.acquireOk _ rfl
  have h3 : MStep ⟨[], .running, 0, none, none, .beforeAction 0⟩
      ⟨[], .running, 0, none, none, .finishingOk⟩ :=
    MStep.loopExit _ 0 rfl (by decide)
  have h4 : MStep ⟨[], .running, 0, none, none, .finishingOk⟩
      ⟨[], .running, 0, some successResult, none, .resultSetOk⟩ :=
    MStep.finishOkResult _ rfl
  have hreach : MReach (initConfig [])
      ⟨[], .running, 0, some successResult, none, .resultSetOk⟩ :=
    Relation.ReflTransGen.tail (Relation.ReflTransGen.tail
      (Relation.ReflTransGen.tail (Relation.ReflTransGen.tail
        Relation.ReflTransGen.refl h1) h2) h3) h4
  exact (C3_result_amended [] _ _ successResult hreach
    (MStep.shutdownStep _ (Or.inl rfl))).1 rfl
